import Mathlib

/-!
Verification of the mapbuilder OSM converters.

This file gives a shallow embedding of the feature-classification and
coordinate-transcoding core shared by `osm_to_euroscope.py` and
`osm_to_gng_direct.py`, of the line-segment emission in
`osm_to_euroscope.py` (`write_lines_file`), and of the coordinate
accumulation in `euroscope_to_topsky.py` (`convert_to_topsky`).
Python floats are modelled as exact rationals; Python dictionaries of
OSM tags are modelled by a record holding the eight keys the code reads.
-/

set_option maxRecDepth 100000

/-! ## String formatting helpers (Python `f"{..:03d}"` / `f"{..:06.3f}"`) -/

/-- Zero-pad a decimal string on the left to width `w`
(Python's `0`-padded format specifier). -/
def padZeros (w : Nat) (s : String) : String :=
  String.mk (List.replicate (w - s.length) '0' ++ s.data)

/-- Round a rational to the nearest integer, ties to even — the rounding
applied by Python's fixed-precision float formatting. -/
def rndHalfEven (q : ℚ) : ℤ :=
  if q - q.floor < 1/2 then q.floor
  else if 1/2 < q - q.floor then q.floor + 1
  else if q.floor % 2 = 0 then q.floor else q.floor + 1

/-- Python `f"{s:06.3f}"` for a nonnegative seconds value: three decimal
places, zero-padded to total width 6. -/
def fmtSec (s : ℚ) : String :=
  let ms := (rndHalfEven (s * 1000)).toNat
  padZeros 6 (Nat.repr (ms / 1000) ++ "." ++ padZeros 3 (Nat.repr (ms % 1000)))

/-! ## Coordinate transcoder (`decimal_to_dms`, osm_to_euroscope.py lines 64-79) -/

/-- Python `abs` on the decimal-degree value. -/
def pyAbs (q : ℚ) : ℚ := if q < 0 then -q else q

/-- `degrees = int(decimal_degrees)` after taking the absolute value. -/
def dmsDegrees (dd : ℚ) : ℤ := (pyAbs dd).floor

/-- `minutes_decimal = (decimal_degrees - degrees) * 60`. -/
def dmsMinutesDec (dd : ℚ) : ℚ := (pyAbs dd - dmsDegrees dd) * 60

/-- `minutes = int(minutes_decimal)`. -/
def dmsMinutes (dd : ℚ) : ℤ := (dmsMinutesDec dd).floor

/-- `seconds = (minutes_decimal - minutes) * 60`. -/
def dmsSeconds (dd : ℚ) : ℚ := (dmsMinutesDec dd - dmsMinutes dd) * 60

/-- The integer number of milliseconds the seconds field shows after the
formatting of `f"{seconds:06.3f}"` rounds it. -/
def dmsSecondsMillis (dd : ℚ) : ℕ := (rndHalfEven (dmsSeconds dd * 1000)).toNat

/-- `decimal_to_dms` from osm_to_euroscope.py: decimal degrees to
`<hemisphere><DDD>.<MM>.<SS.SSS>`. -/
def decimal_to_dms (dd : ℚ) (is_latitude : Bool) : String :=
  let dir := if is_latitude then (if 0 ≤ dd then "N" else "S")
             else (if 0 ≤ dd then "E" else "W")
  dir ++ padZeros 3 (Nat.repr (dmsDegrees dd).toNat) ++ "." ++
    padZeros 2 (Nat.repr (dmsMinutes dd).toNat) ++ "." ++ fmtSec (dmsSeconds dd)

/-! ## Name normalizer (`normalize_hangar_name`, osm_to_euroscope.py lines 54-62) -/

/-- Python `s.replace(pat, rep)` on character lists, written with an
explicit fuel so the recursion is structural: replace every
non-overlapping occurrence of `pat`, scanning left to right.  Each
recursive call strictly shortens the remaining text, so the fuel
`s.length` supplied by `replaceStr` below never runs out.  The source
only calls it with the fixed non-empty patterns below. -/
def replaceStrFuel (pat rep : List Char) : ℕ → List Char → List Char
  | _, [] => []
  | 0, s => s
  | fuel + 1, c :: cs =>
    match pat with
    | [] => c :: cs
    | p :: ps =>
      if (p :: ps).isPrefixOf (c :: cs) then
        rep ++ replaceStrFuel (p :: ps) rep fuel ((c :: cs).drop (p :: ps).length)
      else
        c :: replaceStrFuel (p :: ps) rep fuel cs

/-- Python `s.replace(pat, rep)` on character lists. -/
def replaceStr (pat rep s : List Char) : List Char :=
  replaceStrFuel pat rep s.length s

/-- `normalize_hangar_name`: fix the four hangar misspellings, pass empty
input through unchanged. -/
def normalize_hangar_name (name : String) : String :=
  if name.isEmpty then name
  else
    String.mk
      (replaceStr "hagner".data "hangar".data
        (replaceStr "Hagner".data "Hangar".data
          (replaceStr "hanger".data "hangar".data
            (replaceStr "Hanger".data "Hangar".data name.data))))

/-! ## Data model -/

/-- A coordinate pair, stored `(lon, lat)` exactly as the Python code
appends `(node['lon'], node['lat'])`. -/
abbrev Coord := ℚ × ℚ

/-- The OSM tag values the converters read, each `none` when the key is
absent from the element's tag dictionary. -/
structure Tags where
  aeroway : Option String
  building : Option String
  natural : Option String
  landuse : Option String
  water : Option String
  waterway : Option String
  name : Option String
  ref : Option String
deriving DecidableEq

/-- A tag dictionary with no keys. -/
def emptyTags : Tags := ⟨none, none, none, none, none, none, none, none⟩

/-- One classified way feature record as the Python code builds it. -/
structure Feature where
  ftype : String
  color : String
  coords : List Coord
  name : String
  sort_order : ℕ
deriving DecidableEq

/-- One gate/parking/stand label record built from a tagged node. -/
structure PointLabel where
  ptype : String
  ref : String
  lat : ℚ
  lon : ℚ
deriving DecidableEq

/-- The three output sequences of `parse_osm_data`. -/
structure Features where
  lines : List Feature
  areas : List Feature
  labels : List PointLabel
deriving DecidableEq

/-- One raw OSM element of the Overpass answer. -/
inductive Element where
  | node (id : ℤ) (lat lon : ℚ) (tags : Tags)
  | way (id : ℤ) (nodeIds : List ℤ) (tags : Tags)
deriving DecidableEq

/-- A classified way goes to either the `lines` or the `areas` list. -/
inductive WayFeature where
  | line (f : Feature)
  | area (f : Feature)
deriving DecidableEq

/-- The feature record held by a `WayFeature`. -/
def WayFeature.feat : WayFeature → Feature
  | .line f => f
  | .area f => f

/-! ## Classifier (`parse_osm_data`, osm_to_euroscope.py lines 87-231) -/

/-- Python truthiness of `tags.get(key)`: false for a missing key and for
an empty string value. -/
def strTruthy : Option String → Bool
  | none => false
  | some s => !s.isEmpty

/-- Python `a or b` on strings: `b` when `a` is empty. -/
def pyOr (s d : String) : String := if s.isEmpty then d else s

/-- `is_closed = element['nodes'][0] == element['nodes'][-1]`. -/
def isClosed (nodeIds : List ℤ) : Bool := nodeIds.head? == nodeIds.getLast?

/-- `name = tags.get('name', tags.get('ref', ''))`. -/
def wayName (t : Tags) : String := t.name.getD (t.ref.getD "")

/-- The way-classification ladder of `parse_osm_data`
(osm_to_euroscope.py lines 106-211), applied to a way's tags, node-id
list and resolved coordinate list. -/
def classifyWay (t : Tags) (nodeIds : List ℤ) (coords : List Coord) :
    Option WayFeature :=
  if coords = [] then none
  else
    let closed := isClosed nodeIds
    let nm := wayName t
    if t.aeroway = some "runway" ∧ closed = false then
      some (.line ⟨"runway", "COLOR_RunwayBorder", coords, pyOr nm "runway", 0⟩)
    else if t.aeroway = some "taxiway" ∧ closed = false then
      some (.line ⟨"taxiway", "COLOR_TaxiwayYellow", coords, pyOr nm "taxiway", 1⟩)
    else if t.aeroway = some "taxilane" ∧ closed = false then
      some (.line ⟨"taxilane", "COLOR_TaxiwayGrey", coords, pyOr nm "taxilane", 2⟩)
    else if t.aeroway = some "apron" then
      some (.area ⟨"apron", "COLOR_ApronSurface", coords, pyOr nm "apron", 0⟩)
    else if t.aeroway = some "hangar" ∨ t.building = some "hangar" then
      some (.area ⟨"hangar", "COLOR_Building", coords,
        pyOr (normalize_hangar_name nm) "Hangar", 1⟩)
    else if strTruthy t.building then
      some (.area ⟨"building", "COLOR_Building", coords,
        pyOr (normalize_hangar_name nm) (t.building.getD ""), 2⟩)
    else if t.natural = some "wood" then
      some (.area ⟨"wood", "COLOR_GrasSurface", coords, "woods", 3⟩)
    else if t.natural = some "grassland" ∨ t.landuse = some "grass" then
      some (.area ⟨"grass", "COLOR_GrasSurface", coords, "grass", 3⟩)
    else if t.natural = some "water" ∨ strTruthy t.water ∨ strTruthy t.waterway then
      some (.area ⟨"water", "COLOR_GrasSurface", coords, "water", 4⟩)
    else none

/-- The node-classification arm of `parse_osm_data`
(osm_to_euroscope.py lines 213-224). -/
def classifyNode (t : Tags) (lat lon : ℚ) : Option PointLabel :=
  match t.aeroway with
  | some a =>
    if a = "gate" ∨ a = "parking_position" ∨ a = "stand" then
      some ⟨a, t.ref.getD (t.name.getD "?"), lat, lon⟩
    else none
  | none => none

/-- First pass of `parse_osm_data`: collect all nodes into the node
index.  Entries are prepended so that lookup finds the most recently
stored coordinate, matching Python dictionary overwrite. -/
def buildNodeIndex (es : List Element) : List (ℤ × Coord) :=
  es.foldl
    (fun m e =>
      match e with
      | .node i la lo _ => (i, (lo, la)) :: m
      | .way _ _ _ => m)
    []

/-- `node_id in nodes` lookup. -/
def lookupNode (idx : List (ℤ × Coord)) (i : ℤ) : Option Coord :=
  idx.lookup i

/-- The coordinate list of a way: each referenced node id looked up in
the index in original order, ids not found silently omitted
(osm_to_euroscope.py lines 115-120). -/
def wayCoords (idx : List (ℤ × Coord)) (nodeIds : List ℤ) : List Coord :=
  nodeIds.filterMap (lookupNode idx)

/-- Second-pass step of `parse_osm_data`: classify one element and append
the resulting feature, if any, to the matching output list. -/
def processElement (idx : List (ℤ × Coord)) (acc : Features) (e : Element) :
    Features :=
  match e with
  | .way _ ids t =>
    match classifyWay t ids (wayCoords idx ids) with
    | some (.line f) => ⟨acc.lines ++ [f], acc.areas, acc.labels⟩
    | some (.area f) => ⟨acc.lines, acc.areas ++ [f], acc.labels⟩
    | none => acc
  | .node _ la lo t =>
    match classifyNode t la lo with
    | some l => ⟨acc.lines, acc.areas, acc.labels ++ [l]⟩
    | none => acc

/-- The Boolean order behind Python's sort key
`lambda x: (x['sort_order'], x['name'])`: lexicographic on the pair. -/
def featLE (a b : Feature) : Bool :=
  decide (a.sort_order < b.sort_order) ||
    (decide (a.sort_order = b.sort_order) && decide (a.name ≤ b.name))

/-- The Boolean order behind Python's sort key `lambda x: x['ref']`. -/
def labelLE (a b : PointLabel) : Bool := decide (a.ref ≤ b.ref)

/-- `parse_osm_data` (osm_to_euroscope.py lines 87-231): node-index pass,
classification pass, then the three stable sorts. -/
def parse_osm_data (es : List Element) : Features :=
  let idx := buildNodeIndex es
  let raw := es.foldl (processElement idx) ⟨[], [], []⟩
  ⟨raw.lines.mergeSort featLE, raw.areas.mergeSort featLE,
    raw.labels.mergeSort labelLE⟩

/-! ## Line-segment emission and TopSky accumulation -/

/-- The segments written by `write_lines_file`
(osm_to_euroscope.py lines 237-251): one `(coords[i], coords[i+1])` pair
per `i in range(len(coords) - 1)`, with no collapsing of duplicates. -/
def lineSegments (coords : List Coord) : List (Coord × Coord) :=
  coords.zip coords.tail

/-- One step of the coordinate accumulation in `convert_to_topsky`
(euroscope_to_topsky.py lines 32-35): append the parsed coordinate only
when the list is empty or its last entry differs. -/
def addTopskyCoord {α : Type} [DecidableEq α] (acc : List α) (c : α) : List α :=
  if acc = [] ∨ acc.getLast? ≠ some c then acc ++ [c] else acc

/-- The coordinate list `convert_to_topsky` collects from a sequence of
parsed per-line first coordinates. -/
def collectTopskyCoords {α : Type} [DecidableEq α] (cs : List α) : List α :=
  cs.foldl addTopskyCoord []

/-! ## Arithmetic helper lemmas -/

theorem ratFloor_le (q : ℚ) : (Rat.floor q : ℚ) ≤ q := Rat.le_floor.mp le_rfl

theorem lt_ratFloor_add_one (q : ℚ) : q < Rat.floor q + 1 := by
  by_contra h
  push_neg at h
  have h2 : (Rat.floor q + 1 : ℤ) ≤ Rat.floor q := Rat.le_floor.mpr (by push_cast; linarith)
  omega

theorem ratFloor_nonneg {q : ℚ} (h : 0 ≤ q) : 0 ≤ Rat.floor q :=
  Rat.le_floor.mpr (by exact_mod_cast h)

theorem ratFloor_lt_of_lt {q : ℚ} {n : ℤ} (h : q < n) : Rat.floor q < n := by
  by_contra hc
  push_neg at hc
  have h3 : (n : ℚ) ≤ q := le_trans (by exact_mod_cast hc) (ratFloor_le q)
  exact absurd h (not_lt.mpr h3)

theorem pyAbs_nonneg (q : ℚ) : 0 ≤ pyAbs q := by
  unfold pyAbs
  split <;> linarith

theorem pyAbs_le {q c : ℚ} (h1 : -c ≤ q) (h2 : q ≤ c) : pyAbs q ≤ c := by
  unfold pyAbs
  split <;> linarith

theorem rndHalfEven_nonneg {q : ℚ} (h : 0 ≤ q) : 0 ≤ rndHalfEven q := by
  have hf : 0 ≤ Rat.floor q := ratFloor_nonneg h
  unfold rndHalfEven
  split
  · exact hf
  · split
    · omega
    · split <;> omega

theorem rndHalfEven_le {q : ℚ} {n : ℤ} (h : q < n) : rndHalfEven q ≤ n := by
  have hf : Rat.floor q < n := ratFloor_lt_of_lt h
  unfold rndHalfEven
  split
  · omega
  · split
    · omega
    · split <;> omega

/-! ## String-length helper lemmas -/

theorem padZeros_len {w : ℕ} {s : String} (h : s.length ≤ w) :
    (padZeros w s).length = w := by
  show (List.replicate (w - s.length) '0' ++ s.data).length = w
  have hd : s.data.length = s.length := rfl
  simp only [List.length_append, List.length_replicate, hd]
  omega

theorem reprLen3 : ∀ n : ℕ, n < 1000 → (Nat.repr n).length ≤ 3 := by decide

theorem reprLen2 : ∀ n : ℕ, n < 100 → (Nat.repr n).length ≤ 2 := by decide

/-! ## C1: the DMS transcoder -/

theorem dms_minutesDec_bounds (dd : ℚ) :
    0 ≤ dmsMinutesDec dd ∧ dmsMinutesDec dd < 60 := by
  have hle := ratFloor_le (pyAbs dd)
  have hlt := lt_ratFloor_add_one (pyAbs dd)
  unfold dmsMinutesDec dmsDegrees
  constructor
  · nlinarith
  · nlinarith

theorem dms_seconds_bounds (dd : ℚ) :
    0 ≤ dmsSeconds dd ∧ dmsSeconds dd < 60 := by
  have hle := ratFloor_le (dmsMinutesDec dd)
  have hlt := lt_ratFloor_add_one (dmsMinutesDec dd)
  unfold dmsSeconds dmsMinutes
  constructor
  · nlinarith
  · nlinarith

/-- C1 (amended): for every decimal-degree input in [-180, 180] and
either axis, `decimal_to_dms` produces the token
`<hemisphere><DDD>.<MM>.<SS.SSS>` — hemisphere N/E when the value is
nonnegative and S/W otherwise, degrees the integer part of the absolute
value zero-padded to 3 digits and lying in [0,180], minutes in [0,59]
zero-padded to 2 digits, seconds formatted to exactly 3 decimal places at
total width 6 and lying in [0,60] after rounding (the value 60.000 is
reached when the exact seconds round up, so the interval is closed, not
half-open); in particular `decimal_to_dms(44.865, latitude)` equals
`"N044.51.54.000"`. -/
theorem c1_dms_token_shape (dd : ℚ) (b : Bool) (h1 : -180 ≤ dd) (h2 : dd ≤ 180) :
    0 ≤ dmsDegrees dd ∧ dmsDegrees dd ≤ 180 ∧
    0 ≤ dmsMinutes dd ∧ dmsMinutes dd ≤ 59 ∧
    dmsSecondsMillis dd ≤ 60000 ∧
    decimal_to_dms dd b =
      (if b then (if 0 ≤ dd then "N" else "S")
       else (if 0 ≤ dd then "E" else "W")) ++
        padZeros 3 (Nat.repr (dmsDegrees dd).toNat) ++ "." ++
        padZeros 2 (Nat.repr (dmsMinutes dd).toNat) ++ "." ++
        padZeros 6 (Nat.repr (dmsSecondsMillis dd / 1000) ++ "." ++
          padZeros 3 (Nat.repr (dmsSecondsMillis dd % 1000))) ∧
    (decimal_to_dms dd b).length = 14 ∧
    decimal_to_dms (44865/1000) true = "N044.51.54.000" := by
  have hA0 : 0 ≤ pyAbs dd := pyAbs_nonneg dd
  have hA1 : pyAbs dd ≤ 180 := pyAbs_le h1 h2
  have hd0 : 0 ≤ dmsDegrees dd := ratFloor_nonneg hA0
  have hd1 : dmsDegrees dd ≤ 180 := by
    have : Rat.floor (pyAbs dd) < 181 :=
      ratFloor_lt_of_lt (n := 181) (by push_cast; linarith)
    unfold dmsDegrees
    omega
  have hmd := dms_minutesDec_bounds dd
  have hm0 : 0 ≤ dmsMinutes dd := ratFloor_nonneg hmd.1
  have hm1 : dmsMinutes dd ≤ 59 := by
    have : Rat.floor (dmsMinutesDec dd) < 60 :=
      ratFloor_lt_of_lt (n := 60) (by push_cast; linarith [hmd.2])
    unfold dmsMinutes
    omega
  have hs := dms_seconds_bounds dd
  have hms : dmsSecondsMillis dd ≤ 60000 := by
    have h60 : rndHalfEven (dmsSeconds dd * 1000) ≤ 60000 :=
      rndHalfEven_le (by push_cast; linarith [hs.2])
    unfold dmsSecondsMillis
    omega
  have hshape : decimal_to_dms dd b =
      (if b then (if 0 ≤ dd then "N" else "S")
       else (if 0 ≤ dd then "E" else "W")) ++
        padZeros 3 (Nat.repr (dmsDegrees dd).toNat) ++ "." ++
        padZeros 2 (Nat.repr (dmsMinutes dd).toNat) ++ "." ++
        padZeros 6 (Nat.repr (dmsSecondsMillis dd / 1000) ++ "." ++
          padZeros 3 (Nat.repr (dmsSecondsMillis dd % 1000))) := rfl
  have hlen : (decimal_to_dms dd b).length = 14 := by
    rw [hshape]
    have l1 : (padZeros 3 (Nat.repr (dmsDegrees dd).toNat)).length = 3 :=
      padZeros_len (reprLen3 _ (by omega))
    have l2 : (padZeros 2 (Nat.repr (dmsMinutes dd).toNat)).length = 2 :=
      padZeros_len (reprLen2 _ (by omega))
    have l3 : (padZeros 6 (Nat.repr (dmsSecondsMillis dd / 1000) ++ "." ++
        padZeros 3 (Nat.repr (dmsSecondsMillis dd % 1000)))).length = 6 := by
      apply padZeros_len
      have i1 : (Nat.repr (dmsSecondsMillis dd / 1000)).length ≤ 2 :=
        reprLen2 _ (by omega)
      have i2 : (padZeros 3 (Nat.repr (dmsSecondsMillis dd % 1000))).length = 3 :=
        padZeros_len (reprLen3 _ (by omega))
      simp only [String.length_append, i2]
      have : ("." : String).length = 1 := rfl
      omega
    have ldir : ((if b then (if 0 ≤ dd then "N" else "S")
        else (if 0 ≤ dd then "E" else "W")) : String).length = 1 := by
      split <;> split <;> rfl
    simp only [String.length_append, ldir, l1, l2, l3]
    rfl
  refine ⟨hd0, hd1, hm0, hm1, hms, hshape, hlen, ?_⟩
  with_unfolding_all decide

/-- C1 witness: the theorem instantiated at the spec's own example,
44.865 degrees of latitude. -/
theorem c1_witness :
    ((-180 : ℚ) ≤ 44865/1000 ∧ (44865/1000 : ℚ) ≤ 180) ∧
    decimal_to_dms (44865/1000 : ℚ) true = "N044.51.54.000" ∧
    (decimal_to_dms (44865/1000 : ℚ) true).length = 14 := by
  have h1 : (-180 : ℚ) ≤ 44865/1000 := by norm_num
  have h2 : (44865/1000 : ℚ) ≤ 180 := by norm_num
  refine ⟨⟨h1, h2⟩, ?_, ?_⟩
  · exact (c1_dms_token_shape (44865/1000) true h1 h2).2.2.2.2.2.2.2
  · exact (c1_dms_token_shape (44865/1000) true h1 h2).2.2.2.2.2.2.1

/-- C1 counterexample to the claim as stated: at 0.9999999 degrees
(within [-180, 180]) the exact seconds value 59.99964 rounds up to
60.000, so the seconds field shows 60.000, which is not in [0,60); the
emitted token is "N000.59.60.000". -/
theorem c1_counterexample :
    ((-180 : ℚ) ≤ 9999999/10000000 ∧ (9999999/10000000 : ℚ) ≤ 180) ∧
    decimal_to_dms (9999999/10000000) true = "N000.59.60.000" ∧
    ¬ dmsSecondsMillis (9999999/10000000 : ℚ) < 60000 := by
  refine ⟨⟨by norm_num, by norm_num⟩, ?_, ?_⟩
  · with_unfolding_all decide
  · with_unfolding_all decide

/-! ## C2: duplicate collapsing around line-segment emission -/

theorem addTopskyCoord_chain {α : Type} [DecidableEq α] {acc : List α}
    (h : List.Chain' (· ≠ ·) acc) (c : α) :
    List.Chain' (· ≠ ·) (addTopskyCoord acc c) := by
  unfold addTopskyCoord
  split
  · rename_i hcond
    rcases hcond with h1 | h2
    · subst h1
      simp
    · refine List.chain'_append.mpr ⟨h, List.chain'_singleton c, ?_⟩
      intro x hx y hy
      simp only [List.head?_cons, Option.mem_def, Option.some.injEq] at hy
      subst hy
      intro hxc
      subst hxc
      exact h2 hx
  · exact h

theorem collectTopskyCoords_chain {α : Type} [DecidableEq α] (cs : List α) :
    List.Chain' (· ≠ ·) (collectTopskyCoords cs) := by
  suffices hgen : ∀ acc : List α, List.Chain' (· ≠ ·) acc →
      List.Chain' (· ≠ ·) (List.foldl addTopskyCoord acc cs) from
    hgen [] List.chain'_nil
  induction cs with
  | nil => intro acc h; exact h
  | cons c rest ih =>
    intro acc h
    rw [List.foldl_cons]
    exact ih _ (addTopskyCoord_chain h c)

/-- C2 (amended): the line-segment writer `write_lines_file` emits every
consecutive coordinate pair verbatim, including degenerate segments whose
two endpoints are equal — on [(1,1),(1,1),(2,2)] it emits the segment
((1,1),(1,1)) followed by ((1,1),(2,2)).  Consecutive-duplicate
collapsing happens instead in the EuroScope-to-TopSky converter
`convert_to_topsky`, whose coordinate accumulation appends a coordinate
only when it differs from the last one collected, so [(1,1),(1,1),(2,2)]
reduces to [(1,1),(2,2)] and no two adjacent collected coordinates are
ever equal. -/
theorem c2_duplicate_collapsing :
    (∀ cs : List Coord, List.Chain' (· ≠ ·) (collectTopskyCoords cs)) ∧
    collectTopskyCoords [((1 : ℚ), (1 : ℚ)), (1, 1), (2, 2)] = [(1, 1), (2, 2)] ∧
    lineSegments [((1 : ℚ), (1 : ℚ)), (1, 1), (2, 2)] =
      [((1, 1), (1, 1)), ((1, 1), (2, 2))] := by
  refine ⟨collectTopskyCoords_chain, ?_, ?_⟩
  · with_unfolding_all decide
  · with_unfolding_all decide

/-- C2 counterexample to the claim as stated: before line-segment
emission nothing is collapsed — `write_lines_file` on the coordinate
sequence [(1,1),(1,1),(2,2)] emits the degenerate segment ((1,1),(1,1))
first, not the collapsed segment list. -/
theorem c2_counterexample :
    lineSegments [((1 : ℚ), (1 : ℚ)), (1, 1), (2, 2)] =
      [((1, 1), (1, 1)), ((1, 1), (2, 2))] ∧
    lineSegments [((1 : ℚ), (1 : ℚ)), (1, 1), (2, 2)] ≠ [((1, 1), (2, 2))] := by
  constructor
  · with_unfolding_all decide
  · with_unfolding_all decide

/-! ## Classifier helper lemmas -/

theorem pyOr_ne_empty {s d : String} (hd : d ≠ "") : pyOr s d ≠ "" := by
  unfold pyOr
  split
  · exact hd
  · rename_i hs
    intro he
    exact hs (by simp [he, String.isEmpty_iff])

theorem strTruthy_getD {o : Option String} (h : strTruthy o = true) :
    o.getD "" ≠ "" := by
  cases o with
  | none => exact Bool.noConfusion h
  | some s =>
    intro he
    rw [Option.getD_some] at he
    subst he
    exact Bool.noConfusion h

theorem strTruthy_of_eq_hangar {o : Option String} (h : o = some "hangar") :
    strTruthy o = true := by
  subst h
  rfl

/-- When a closed way carries one of the three centerline `aeroway`
values and none of the area tags, every branch of the ladder fails. -/
theorem classifyWay_closed_none {t : Tags} (ids : List ℤ) (coords : List Coord)
    (ha : t.aeroway = some "runway" ∨ t.aeroway = some "taxiway" ∨
      t.aeroway = some "taxilane")
    (hc : isClosed ids = true)
    (hb : strTruthy t.building = false)
    (hn1 : t.natural ≠ some "wood") (hn2 : t.natural ≠ some "grassland")
    (hn3 : t.natural ≠ some "water")
    (hl : t.landuse ≠ some "grass")
    (hw : strTruthy t.water = false) (hww : strTruthy t.waterway = false) :
    classifyWay t ids coords = none := by
  have hhang : t.building ≠ some "hangar" := by
    intro he
    rw [strTruthy_of_eq_hangar he] at hb
    cases hb
  rcases ha with h | h | h <;>
    simp [classifyWay, hc, h, hb, hhang, hn1, hn2, hn3, hl, hw, hww]

theorem classifyWay_some_ne_nil {t : Tags} {ids : List ℤ} {cs : List Coord}
    {w : WayFeature} (h : classifyWay t ids cs = some w) : cs ≠ [] := by
  intro he
  subst he
  simp [classifyWay] at h

theorem classifyWay_line_spec {t : Tags} {ids : List ℤ} {cs : List Coord}
    {f : Feature} (h : classifyWay t ids cs = some (.line f)) :
    f.coords = cs ∧ f.name ≠ "" ∧
    ((f.ftype = "runway" ∧ f.sort_order = 0) ∨
     (f.ftype = "taxiway" ∧ f.sort_order = 1) ∨
     (f.ftype = "taxilane" ∧ f.sort_order = 2)) := by
  simp only [classifyWay] at h
  repeat' split at h
  · exact Option.noConfusion h
  · injection h with h1
    injection h1 with h2
    subst h2
    exact ⟨rfl, pyOr_ne_empty (by decide), Or.inl ⟨rfl, rfl⟩⟩
  · injection h with h1
    injection h1 with h2
    subst h2
    exact ⟨rfl, pyOr_ne_empty (by decide), Or.inr (Or.inl ⟨rfl, rfl⟩)⟩
  · injection h with h1
    injection h1 with h2
    subst h2
    exact ⟨rfl, pyOr_ne_empty (by decide), Or.inr (Or.inr ⟨rfl, rfl⟩)⟩
  · injection h with h1
    exact WayFeature.noConfusion h1
  · injection h with h1
    exact WayFeature.noConfusion h1
  · injection h with h1
    exact WayFeature.noConfusion h1
  · injection h with h1
    exact WayFeature.noConfusion h1
  · injection h with h1
    exact WayFeature.noConfusion h1
  · injection h with h1
    exact WayFeature.noConfusion h1
  · exact Option.noConfusion h

theorem classifyWay_area_spec {t : Tags} {ids : List ℤ} {cs : List Coord}
    {f : Feature} (h : classifyWay t ids cs = some (.area f)) :
    f.coords = cs ∧ f.name ≠ "" ∧
    ((f.ftype = "apron" ∧ f.sort_order = 0) ∨
     (f.ftype = "hangar" ∧ f.sort_order = 1) ∨
     (f.ftype = "building" ∧ f.sort_order = 2) ∨
     (f.ftype = "wood" ∧ f.sort_order = 3) ∨
     (f.ftype = "grass" ∧ f.sort_order = 3) ∨
     (f.ftype = "water" ∧ f.sort_order = 4)) := by
  simp only [classifyWay] at h
  repeat' split at h
  · exact Option.noConfusion h
  · injection h with h1
    exact WayFeature.noConfusion h1
  · injection h with h1
    exact WayFeature.noConfusion h1
  · injection h with h1
    exact WayFeature.noConfusion h1
  · injection h with h1
    injection h1 with h2
    subst h2
    exact ⟨rfl, pyOr_ne_empty (by decide), Or.inl ⟨rfl, rfl⟩⟩
  · injection h with h1
    injection h1 with h2
    subst h2
    exact ⟨rfl, pyOr_ne_empty (by decide), Or.inr (Or.inl ⟨rfl, rfl⟩)⟩
  · injection h with h1
    injection h1 with h2
    subst h2
    exact ⟨rfl, pyOr_ne_empty (strTruthy_getD (by assumption)),
      Or.inr (Or.inr (Or.inl ⟨rfl, rfl⟩))⟩
  · injection h with h1
    injection h1 with h2
    subst h2
    exact ⟨rfl, (by decide : ("woods" : String) ≠ ""),
      Or.inr (Or.inr (Or.inr (Or.inl ⟨rfl, rfl⟩)))⟩
  · injection h with h1
    injection h1 with h2
    subst h2
    exact ⟨rfl, (by decide : ("grass" : String) ≠ ""),
      Or.inr (Or.inr (Or.inr (Or.inr (Or.inl ⟨rfl, rfl⟩))))⟩
  · injection h with h1
    injection h1 with h2
    subst h2
    exact ⟨rfl, (by decide : ("water" : String) ≠ ""),
      Or.inr (Or.inr (Or.inr (Or.inr (Or.inr ⟨rfl, rfl⟩))))⟩
  · exact Option.noConfusion h

/-! ## C3: closed centerline-tagged ways -/

/-- C3 (amended): a Way tagged `aeroway=runway`/`taxiway`/`taxilane`
whose first and last referenced node ids are identical yields no feature,
provided its tags carry no truthy `building` value, no `natural` value of
wood/grassland/water, no `landuse=grass`, and no truthy `water` or
`waterway` value.  (A closed such way that additionally carries one of
those area tags — e.g. `building=hangar` — is classified by the later
area rules instead of being dropped.) -/
theorem c3_closed_centerline_dropped (t : Tags) (ids : List ℤ)
    (coords : List Coord)
    (ha : t.aeroway = some "runway" ∨ t.aeroway = some "taxiway" ∨
      t.aeroway = some "taxilane")
    (hc : isClosed ids = true)
    (hb : strTruthy t.building = false)
    (hn1 : t.natural ≠ some "wood") (hn2 : t.natural ≠ some "grassland")
    (hn3 : t.natural ≠ some "water")
    (hl : t.landuse ≠ some "grass")
    (hw : strTruthy t.water = false) (hww : strTruthy t.waterway = false) :
    classifyWay t ids coords = none :=
  classifyWay_closed_none ids coords ha hc hb hn1 hn2 hn3 hl hw hww

/-- C3 witness: a closed way tagged only `aeroway=taxiway` is dropped. -/
theorem c3_witness :
    classifyWay ⟨some "taxiway", none, none, none, none, none, none, none⟩
      [7, 8, 7] [((1 : ℚ), 2)] = none :=
  c3_closed_centerline_dropped _ [7, 8, 7] [((1 : ℚ), 2)]
    (Or.inr (Or.inl rfl)) (by decide) rfl (by decide) (by decide) (by decide)
    (by decide) rfl rfl

/-- C3 counterexample to the claim as stated: a closed way tagged
`{aeroway: taxiway, building: hangar}` is not dropped — the classifier
emits a hangar area feature for it. -/
theorem c3_counterexample :
    classifyWay ⟨some "taxiway", some "hangar", none, none, none, none, none, none⟩
      [1, 2, 1] [((0 : ℚ), 0), (1, 1), (0, 0)] =
    some (.area ⟨"hangar", "COLOR_Building",
      [((0 : ℚ), 0), (1, 1), (0, 0)], "Hangar", 1⟩) := by
  with_unfolding_all decide

/-! ## C4: classification precedence -/

/-- C4: classification is first-match-wins — a Way tagged
`{aeroway: taxiway, building: hangar}` that is not closed classifies as a
taxiway line (rule with sort priority 1) and never as a hangar area,
whatever its other tags and coordinates. -/
theorem c4_taxiway_precedes_hangar (t : Tags) (ids : List ℤ)
    (coords : List Coord)
    (ht : t.aeroway = some "taxiway") (hb : t.building = some "hangar")
    (hnc : isClosed ids = false) :
    (coords ≠ [] → classifyWay t ids coords =
      some (.line ⟨"taxiway", "COLOR_TaxiwayYellow", coords,
        pyOr (wayName t) "taxiway", 1⟩)) ∧
    ∀ f : Feature, classifyWay t ids coords ≠ some (.area f) := by
  have key : coords ≠ [] → classifyWay t ids coords =
      some (.line ⟨"taxiway", "COLOR_TaxiwayYellow", coords,
        pyOr (wayName t) "taxiway", 1⟩) := by
    intro hne
    simp [classifyWay, ht, hnc, hne]
  refine ⟨key, ?_⟩
  intro f h
  by_cases hcs : coords = []
  · subst hcs
    simp [classifyWay] at h
  · rw [key hcs] at h
    exact absurd h (by simp)

/-- C4 witness: the open taxiway+hangar way with one resolved coordinate
classifies as the taxiway line. -/
theorem c4_witness :
    classifyWay ⟨some "taxiway", some "hangar", none, none, none, none, none, none⟩
      [1, 2] [((0 : ℚ), 0)] =
    some (.line ⟨"taxiway", "COLOR_TaxiwayYellow", [((0 : ℚ), 0)], "taxiway", 1⟩) :=
  (c4_taxiway_precedes_hangar _ [1, 2] [((0 : ℚ), 0)] rfl rfl (by decide)).1
    (by decide)

/-! ## C5: closed-way detection -/

/-- C5: a Way is detected as closed iff its first and last referenced
node ids are equal — [1,2,3,1] is closed, [1,2,3] is not — and for a
runway-tagged way this detection alone (never the coordinates the ids
resolve to) decides whether a feature is emitted. -/
theorem c5_closed_way_detection :
    isClosed [1, 2, 3, 1] = true ∧ isClosed [1, 2, 3] = false ∧
    ∀ (ids : List ℤ) (coords : List Coord), coords ≠ [] →
      (classifyWay ⟨some "runway", none, none, none, none, none, none, none⟩
          ids coords ≠ none ↔ isClosed ids = false) := by
  refine ⟨by decide, by decide, ?_⟩
  intro ids coords hne
  constructor
  · intro hsome
    by_contra hcl
    have hcl' : isClosed ids = true := by
      cases hval : isClosed ids
      · exact absurd hval hcl
      · rfl
    exact hsome (classifyWay_closed_none ids coords (Or.inl rfl) hcl' rfl
      (by decide) (by decide) (by decide) (by decide) rfl rfl)
  · intro hopen
    have hrw : classifyWay ⟨some "runway", none, none, none, none, none, none, none⟩
        ids coords = some (.line ⟨"runway", "COLOR_RunwayBorder", coords,
          pyOr (wayName ⟨some "runway", none, none, none, none, none, none, none⟩)
            "runway", 0⟩) := by
      simp [classifyWay, hopen, hne]
    rw [hrw]
    simp

/-- C5 witness: the open node-id sequence [1,2,3] makes the runway way
emit a feature. -/
theorem c5_witness :
    classifyWay ⟨some "runway", none, none, none, none, none, none, none⟩
      [1, 2, 3] [((0 : ℚ), 0)] ≠ none :=
  (c5_closed_way_detection.2.2 [1, 2, 3] [((0 : ℚ), 0)] (by decide)).mpr (by decide)

/-! ## Membership characterization of the classification pass -/

theorem classifyNode_some_spec {t : Tags} {la lo : ℚ} {l : PointLabel}
    (h : classifyNode t la lo = some l) :
    l.ref = t.ref.getD (t.name.getD "?") ∧ l.lat = la ∧ l.lon = lo := by
  cases hA : t.aeroway with
  | none =>
    simp only [classifyNode, hA] at h
    exact Option.noConfusion h
  | some a =>
    simp only [classifyNode, hA] at h
    split at h
    · injection h with h1
      subst h1
      exact ⟨rfl, rfl, rfl⟩
    · cases h

theorem mem_lines_foldl (idx : List (ℤ × Coord)) :
    ∀ (es : List Element) (acc : Features) (f : Feature),
    f ∈ (es.foldl (processElement idx) acc).lines →
    f ∈ acc.lines ∨ ∃ i ids t, Element.way i ids t ∈ es ∧
      classifyWay t ids (wayCoords idx ids) = some (.line f) := by
  intro es
  induction es with
  | nil => intro acc f h; exact Or.inl h
  | cons e rest ih =>
    intro acc f h
    rw [List.foldl_cons] at h
    rcases ih (processElement idx acc e) f h with hmem | ⟨i, ids, t, he, hc⟩
    · cases e with
      | way i ids t =>
        rcases hcl : classifyWay t ids (wayCoords idx ids) with _ | w
        · simp only [processElement, hcl] at hmem
          exact Or.inl hmem
        · cases w with
          | line g =>
            simp only [processElement, hcl] at hmem
            rcases List.mem_append.mp hmem with h1 | h2
            · exact Or.inl h1
            · rw [List.mem_singleton] at h2
              subst h2
              exact Or.inr ⟨i, ids, t, List.mem_cons_self _ _, hcl⟩
          | area g =>
            simp only [processElement, hcl] at hmem
            exact Or.inl hmem
      | node i la lo t =>
        rcases hcl : classifyNode t la lo with _ | l
        · simp only [processElement, hcl] at hmem
          exact Or.inl hmem
        · simp only [processElement, hcl] at hmem
          exact Or.inl hmem
    · exact Or.inr ⟨i, ids, t, List.mem_cons_of_mem _ he, hc⟩

theorem mem_areas_foldl (idx : List (ℤ × Coord)) :
    ∀ (es : List Element) (acc : Features) (f : Feature),
    f ∈ (es.foldl (processElement idx) acc).areas →
    f ∈ acc.areas ∨ ∃ i ids t, Element.way i ids t ∈ es ∧
      classifyWay t ids (wayCoords idx ids) = some (.area f) := by
  intro es
  induction es with
  | nil => intro acc f h; exact Or.inl h
  | cons e rest ih =>
    intro acc f h
    rw [List.foldl_cons] at h
    rcases ih (processElement idx acc e) f h with hmem | ⟨i, ids, t, he, hc⟩
    · cases e with
      | way i ids t =>
        rcases hcl : classifyWay t ids (wayCoords idx ids) with _ | w
        · simp only [processElement, hcl] at hmem
          exact Or.inl hmem
        · cases w with
          | line g =>
            simp only [processElement, hcl] at hmem
            exact Or.inl hmem
          | area g =>
            simp only [processElement, hcl] at hmem
            rcases List.mem_append.mp hmem with h1 | h2
            · exact Or.inl h1
            · rw [List.mem_singleton] at h2
              subst h2
              exact Or.inr ⟨i, ids, t, List.mem_cons_self _ _, hcl⟩
      | node i la lo t =>
        rcases hcl : classifyNode t la lo with _ | l
        · simp only [processElement, hcl] at hmem
          exact Or.inl hmem
        · simp only [processElement, hcl] at hmem
          exact Or.inl hmem
    · exact Or.inr ⟨i, ids, t, List.mem_cons_of_mem _ he, hc⟩

theorem mem_labels_foldl (idx : List (ℤ × Coord)) :
    ∀ (es : List Element) (acc : Features) (l : PointLabel),
    l ∈ (es.foldl (processElement idx) acc).labels →
    l ∈ acc.labels ∨ ∃ i la lo t, Element.node i la lo t ∈ es ∧
      classifyNode t la lo = some l := by
  intro es
  induction es with
  | nil => intro acc l h; exact Or.inl h
  | cons e rest ih =>
    intro acc l h
    rw [List.foldl_cons] at h
    rcases ih (processElement idx acc e) l h with hmem | ⟨i, la, lo, t, he, hc⟩
    · cases e with
      | way i ids t =>
        rcases hcl : classifyWay t ids (wayCoords idx ids) with _ | w
        · simp only [processElement, hcl] at hmem
          exact Or.inl hmem
        · cases w with
          | line g =>
            simp only [processElement, hcl] at hmem
            exact Or.inl hmem
          | area g =>
            simp only [processElement, hcl] at hmem
            exact Or.inl hmem
      | node i la lo t =>
        rcases hcl : classifyNode t la lo with _ | l2
        · simp only [processElement, hcl] at hmem
          exact Or.inl hmem
        · simp only [processElement, hcl] at hmem
          rcases List.mem_append.mp hmem with h1 | h2
          · exact Or.inl h1
          · rw [List.mem_singleton] at h2
            subst h2
            exact Or.inr ⟨i, la, lo, t, List.mem_cons_self _ _, hcl⟩
    · exact Or.inr ⟨i, la, lo, t, List.mem_cons_of_mem _ he, hc⟩

/-! ## C6: geometry derivation and coordinate invariants -/

/-- C6: a Way's coordinate list is the in-order node-index lookup of its
node ids with misses omitted, so a way all of whose lookups miss yields
no feature at all; consequently every emitted line or area feature
carries a non-empty coordinate list, and every emitted point label
carries exactly the single (lat, lon) of a node element of the input. -/
theorem c6_geometry_invariants :
    (∀ (idx : List (ℤ × Coord)) (t : Tags) (ids : List ℤ),
      (∀ i ∈ ids, lookupNode idx i = none) →
        classifyWay t ids (wayCoords idx ids) = none) ∧
    (∀ es : List Element, ∀ f ∈ (parse_osm_data es).lines, f.coords ≠ []) ∧
    (∀ es : List Element, ∀ f ∈ (parse_osm_data es).areas, f.coords ≠ []) ∧
    (∀ es : List Element, ∀ l ∈ (parse_osm_data es).labels,
      ∃ i t, Element.node i l.lat l.lon t ∈ es) := by
  have hlines : ∀ es : List Element, (parse_osm_data es).lines =
      List.mergeSort ((es.foldl (processElement (buildNodeIndex es))
        ⟨[], [], []⟩).lines) featLE := fun _ => rfl
  have hareas : ∀ es : List Element, (parse_osm_data es).areas =
      List.mergeSort ((es.foldl (processElement (buildNodeIndex es))
        ⟨[], [], []⟩).areas) featLE := fun _ => rfl
  have hlabels : ∀ es : List Element, (parse_osm_data es).labels =
      List.mergeSort ((es.foldl (processElement (buildNodeIndex es))
        ⟨[], [], []⟩).labels) labelLE := fun _ => rfl
  refine ⟨?_, ?_, ?_, ?_⟩
  · intro idx t ids h
    have hc : wayCoords idx ids = [] := by
      unfold wayCoords
      exact List.filterMap_eq_nil_iff.mpr h
    rw [hc]
    simp [classifyWay]
  · intro es f hf
    rw [hlines es, List.mem_mergeSort] at hf
    rcases mem_lines_foldl _ _ _ _ hf with hmem | ⟨i, ids, t, _, hc⟩
    · cases hmem
    · rw [(classifyWay_line_spec hc).1]
      exact classifyWay_some_ne_nil hc
  · intro es f hf
    rw [hareas es, List.mem_mergeSort] at hf
    rcases mem_areas_foldl _ _ _ _ hf with hmem | ⟨i, ids, t, _, hc⟩
    · cases hmem
    · rw [(classifyWay_area_spec hc).1]
      exact classifyWay_some_ne_nil hc
  · intro es l hl
    rw [hlabels es, List.mem_mergeSort] at hl
    rcases mem_labels_foldl _ _ _ _ hl with hmem | ⟨i, la, lo, t, he, hc⟩
    · cases hmem
    · obtain ⟨-, h2, h3⟩ := classifyNode_some_spec hc
      subst h2
      subst h3
      exact ⟨i, t, he⟩

/-- C6 witness: a way whose only node id misses the (empty) index yields
no feature. -/
theorem c6_witness :
    classifyWay emptyTags [5] (wayCoords [] [5]) = none :=
  c6_geometry_invariants.1 [] emptyTags [5] (by decide)

/-! ## C8: deterministic sorting and kind priorities -/

theorem featLE_iff (a b : Feature) : featLE a b = true ↔
    (a.sort_order < b.sort_order ∨
      (a.sort_order = b.sort_order ∧ a.name ≤ b.name)) := by
  unfold featLE
  simp [Bool.or_eq_true, Bool.and_eq_true, decide_eq_true_eq]

theorem featLE_trans (a b c : Feature) (h1 : featLE a b) (h2 : featLE b c) :
    featLE a c := by
  rw [featLE_iff] at *
  rcases h1 with h1 | ⟨e1, n1⟩ <;> rcases h2 with h2 | ⟨e2, n2⟩
  · exact Or.inl (Nat.lt_trans h1 h2)
  · exact Or.inl (e2 ▸ h1)
  · exact Or.inl (e1 ▸ h2)
  · exact Or.inr ⟨e1.trans e2, le_trans n1 n2⟩

theorem featLE_total (a b : Feature) : featLE a b || featLE b a := by
  rw [Bool.or_eq_true, featLE_iff, featLE_iff]
  rcases Nat.lt_trichotomy a.sort_order b.sort_order with h | h | h
  · exact Or.inl (Or.inl h)
  · rcases le_total a.name b.name with hn | hn
    · exact Or.inl (Or.inr ⟨h, hn⟩)
    · exact Or.inr (Or.inr ⟨h.symm, hn⟩)
  · exact Or.inr (Or.inl h)

theorem labelLE_trans (a b c : PointLabel) (h1 : labelLE a b)
    (h2 : labelLE b c) : labelLE a c := by
  unfold labelLE at *
  rw [decide_eq_true_eq] at *
  exact le_trans h1 h2

theorem labelLE_total (a b : PointLabel) : labelLE a b || labelLE b a := by
  unfold labelLE
  rw [Bool.or_eq_true, decide_eq_true_eq, decide_eq_true_eq]
  exact le_total a.ref b.ref

theorem lineTable_of {f : Feature}
    (h : (f.ftype = "runway" ∧ f.sort_order = 0) ∨
         (f.ftype = "taxiway" ∧ f.sort_order = 1) ∨
         (f.ftype = "taxilane" ∧ f.sort_order = 2)) :
    (f.ftype = "runway" → f.sort_order = 0) ∧
    (f.ftype = "taxiway" → f.sort_order = 1) ∧
    (f.ftype = "taxilane" → f.sort_order = 2) := by
  rcases h with ⟨ht, hs⟩ | ⟨ht, hs⟩ | ⟨ht, hs⟩ <;>
    refine ⟨?_, ?_, ?_⟩ <;> intro hx <;> rw [ht] at hx <;>
      first
        | exact hs
        | exact absurd hx (by decide)

theorem areaTable_of {f : Feature}
    (h : (f.ftype = "apron" ∧ f.sort_order = 0) ∨
         (f.ftype = "hangar" ∧ f.sort_order = 1) ∨
         (f.ftype = "building" ∧ f.sort_order = 2) ∨
         (f.ftype = "wood" ∧ f.sort_order = 3) ∨
         (f.ftype = "grass" ∧ f.sort_order = 3) ∨
         (f.ftype = "water" ∧ f.sort_order = 4)) :
    (f.ftype = "apron" → f.sort_order = 0) ∧
    (f.ftype = "hangar" → f.sort_order = 1) ∧
    (f.ftype = "building" → f.sort_order = 2) ∧
    (f.ftype = "wood" → f.sort_order = 3) ∧
    (f.ftype = "grass" → f.sort_order = 3) ∧
    (f.ftype = "water" → f.sort_order = 4) := by
  rcases h with ⟨ht, hs⟩ | ⟨ht, hs⟩ | ⟨ht, hs⟩ | ⟨ht, hs⟩ | ⟨ht, hs⟩ | ⟨ht, hs⟩ <;>
    refine ⟨?_, ?_, ?_, ?_, ?_, ?_⟩ <;> intro hx <;> rw [ht] at hx <;>
      first
        | exact hs
        | exact absurd hx (by decide)

/-- C8: after classification each of the three output sequences is
sorted ascending by its declared key — lines and areas by the pair
(kind-priority, display name) lexicographically, point labels by label
text — and the fixed kind priorities satisfy
runway (0) < taxiway (1) < taxilane (2) for lines and
apron (0) < hangar (1) < building (2) < wood/grass (3) < water (4)
for areas. -/
theorem c8_sorted_outputs (es : List Element) :
    List.Pairwise (fun a b => featLE a b = true) (parse_osm_data es).lines ∧
    List.Pairwise (fun a b => featLE a b = true) (parse_osm_data es).areas ∧
    List.Pairwise (fun a b => labelLE a b = true) (parse_osm_data es).labels ∧
    (∀ f ∈ (parse_osm_data es).lines,
      (f.ftype = "runway" → f.sort_order = 0) ∧
      (f.ftype = "taxiway" → f.sort_order = 1) ∧
      (f.ftype = "taxilane" → f.sort_order = 2)) ∧
    (∀ f ∈ (parse_osm_data es).areas,
      (f.ftype = "apron" → f.sort_order = 0) ∧
      (f.ftype = "hangar" → f.sort_order = 1) ∧
      (f.ftype = "building" → f.sort_order = 2) ∧
      (f.ftype = "wood" → f.sort_order = 3) ∧
      (f.ftype = "grass" → f.sort_order = 3) ∧
      (f.ftype = "water" → f.sort_order = 4)) := by
  have hlines : (parse_osm_data es).lines =
      List.mergeSort ((es.foldl (processElement (buildNodeIndex es))
        ⟨[], [], []⟩).lines) featLE := rfl
  have hareas : (parse_osm_data es).areas =
      List.mergeSort ((es.foldl (processElement (buildNodeIndex es))
        ⟨[], [], []⟩).areas) featLE := rfl
  have hlabels : (parse_osm_data es).labels =
      List.mergeSort ((es.foldl (processElement (buildNodeIndex es))
        ⟨[], [], []⟩).labels) labelLE := rfl
  refine ⟨?_, ?_, ?_, ?_, ?_⟩
  · rw [hlines]
    exact List.sorted_mergeSort featLE_trans featLE_total _
  · rw [hareas]
    exact List.sorted_mergeSort featLE_trans featLE_total _
  · rw [hlabels]
    exact List.sorted_mergeSort labelLE_trans labelLE_total _
  · intro f hf
    rw [hlines, List.mem_mergeSort] at hf
    rcases mem_lines_foldl _ _ _ _ hf with hmem | ⟨i, ids, t, _, hc⟩
    · cases hmem
    · exact lineTable_of (classifyWay_line_spec hc).2.2
  · intro f hf
    rw [hareas, List.mem_mergeSort] at hf
    rcases mem_areas_foldl _ _ _ _ hf with hmem | ⟨i, ids, t, _, hc⟩
    · cases hmem
    · exact areaTable_of (classifyWay_area_spec hc).2.2

/-- C8 witness: on a two-node input with one open runway way the single
emitted line list is sorted and its runway feature has priority 0. -/
theorem c8_witness :
    List.Pairwise (fun a b => featLE a b = true)
      (parse_osm_data [Element.node 1 10 20 emptyTags,
        Element.node 2 30 40 emptyTags,
        Element.way 3 [1, 2]
          ⟨some "runway", none, none, none, none, none, none, none⟩]).lines ∧
    (⟨"runway", "COLOR_RunwayBorder", [((20 : ℚ), 10), (40, 30)], "runway", 0⟩ :
      Feature).sort_order = 0 := by
  refine ⟨(c8_sorted_outputs _).1, ?_⟩
  exact ((c8_sorted_outputs [Element.node 1 10 20 emptyTags,
      Element.node 2 30 40 emptyTags,
      Element.way 3 [1, 2]
        ⟨some "runway", none, none, none, none, none, none, none⟩]).2.2.2.1
    ⟨"runway", "COLOR_RunwayBorder", [((20 : ℚ), 10), (40, 30)], "runway", 0⟩
    (by with_unfolding_all decide)).1 rfl

/-! ## C9: gate / parking_position / stand node labels -/

/-- C9: a Node whose `aeroway` value is gate, parking_position or stand
yields a point label whose display text is the `ref` tag if the key is
present, else the `name` tag, else the literal "?"; a node with any other
or no `aeroway` value yields no label. -/
theorem c9_node_labels (t : Tags) (la lo : ℚ) :
    (∀ a : String, t.aeroway = some a →
      (a = "gate" ∨ a = "parking_position" ∨ a = "stand") →
      classifyNode t la lo = some ⟨a, t.ref.getD (t.name.getD "?"), la, lo⟩) ∧
    ((∀ a : String, t.aeroway = some a →
        ¬(a = "gate" ∨ a = "parking_position" ∨ a = "stand")) →
      classifyNode t la lo = none) := by
  constructor
  · intro a hA hset
    simp only [classifyNode, hA]
    rw [if_pos hset]
  · intro hno
    cases hA : t.aeroway with
    | none => simp only [classifyNode, hA]
    | some a =>
      simp only [classifyNode, hA]
      rw [if_neg (hno a hA)]

/-- C9 witness: a gate node with `ref=A1` labels as "A1"; a node tagged
`aeroway=windsock` yields nothing. -/
theorem c9_witness :
    classifyNode ⟨some "gate", none, none, none, none, none, none, some "A1"⟩
      1 2 = some ⟨"gate", "A1", 1, 2⟩ ∧
    classifyNode ⟨some "windsock", none, none, none, none, none, none, none⟩
      1 2 = none := by
  constructor
  · exact (c9_node_labels
      ⟨some "gate", none, none, none, none, none, none, some "A1"⟩ 1 2).1
      "gate" rfl (Or.inl rfl)
  · refine (c9_node_labels
      ⟨some "windsock", none, none, none, none, none, none, none⟩ 1 2).2 ?_
    intro a hA
    injection hA with h1
    subst h1
    decide

/-! ## C10: display-name fallbacks -/

/-- C10 (amended): every emitted line feature and every emitted area
feature carries a non-empty display name (falling back to the kind
literal, "Hangar", the building tag value, or a fixed category name);
a point label falls back to the literal "?" only when neither the `ref`
key nor the `name` key is present — a present-but-empty `ref` (or `name`)
tag value is used as-is, so a label's text can be the empty string. -/
theorem c10_names (es : List Element) :
    (∀ f ∈ (parse_osm_data es).lines, f.name ≠ "") ∧
    (∀ f ∈ (parse_osm_data es).areas, f.name ≠ "") ∧
    (∀ (t : Tags) (la lo : ℚ) (l : PointLabel),
      classifyNode t la lo = some l → t.ref = none → t.name = none →
        l.ref = "?") := by
  have hlines : (parse_osm_data es).lines =
      List.mergeSort ((es.foldl (processElement (buildNodeIndex es))
        ⟨[], [], []⟩).lines) featLE := rfl
  have hareas : (parse_osm_data es).areas =
      List.mergeSort ((es.foldl (processElement (buildNodeIndex es))
        ⟨[], [], []⟩).areas) featLE := rfl
  refine ⟨?_, ?_, ?_⟩
  · intro f hf
    rw [hlines, List.mem_mergeSort] at hf
    rcases mem_lines_foldl _ _ _ _ hf with hmem | ⟨i, ids, t, _, hc⟩
    · cases hmem
    · exact (classifyWay_line_spec hc).2.1
  · intro f hf
    rw [hareas, List.mem_mergeSort] at hf
    rcases mem_areas_foldl _ _ _ _ hf with hmem | ⟨i, ids, t, _, hc⟩
    · cases hmem
    · exact (classifyWay_area_spec hc).2.1
  · intro t la lo l h hr hn
    rw [(classifyNode_some_spec h).1, hr, hn]
    rfl

/-- C10 witness: the runway fallback name is non-empty, and a gate node
with neither ref nor name labels as "?". -/
theorem c10_witness :
    (⟨"runway", "COLOR_RunwayBorder", [((20 : ℚ), 10)], "runway", 0⟩ :
      Feature).name ≠ "" ∧
    (⟨"gate", "?", (1 : ℚ), 2⟩ : PointLabel).ref = "?" := by
  constructor
  · exact (c10_names [Element.node 7 10 20 emptyTags,
      Element.way 8 [7, 9]
        ⟨some "runway", none, none, none, none, none, none, none⟩]).1
      ⟨"runway", "COLOR_RunwayBorder", [((20 : ℚ), 10)], "runway", 0⟩
      (by with_unfolding_all decide)
  · exact (c10_names []).2.2
      ⟨some "gate", none, none, none, none, none, none, none⟩ 1 2
      ⟨"gate", "?", 1, 2⟩ (by with_unfolding_all decide) rfl rfl

/-- C10 counterexample to the claim as stated: a gate node whose `ref`
key is present with the empty string as value is emitted as a label with
empty text. -/
theorem c10_counterexample :
    (parse_osm_data [Element.node 1 5 6
        ⟨some "gate", none, none, none, none, none, none, some ""⟩]).labels =
      [⟨"gate", "", 5, 6⟩] ∧
    ¬ (∀ l ∈ (parse_osm_data [Element.node 1 5 6
        ⟨some "gate", none, none, none, none, none, none, some ""⟩]).labels,
        l.ref ≠ "") := by
  constructor
  · with_unfolding_all decide
  · intro hall
    exact hall ⟨"gate", "", 5, 6⟩ (by with_unfolding_all decide) rfl

/-! ## C7: the name normalizer -/

theorem substrCons {α : Type} {l₁ l₂ : List α} {a : α} (h : l₁ <:+: l₂) :
    l₁ <:+: a :: l₂ := by
  obtain ⟨L1, L2, hh⟩ := h
  exact ⟨a :: L1, L2, by rw [List.cons_append, List.cons_append, hh]⟩

theorem replaceStrFuel_skips (pat rep : List Char) :
    ∀ (fuel : ℕ) (s : List Char), ¬ (pat <:+: s) →
      replaceStrFuel pat rep fuel s = s := by
  intro fuel
  induction fuel with
  | zero =>
    intro s h
    cases s <;> rfl
  | succ n ih =>
    intro s h
    cases s with
    | nil => rfl
    | cons c cs =>
      cases pat with
      | nil => rfl
      | cons p ps =>
        have hpre : ¬ ((p :: ps).isPrefixOf (c :: cs) = true) := by
          rw [ List.isPrefixOf_iff_prefix]
          intro hp
          exact h hp.isInfix
        simp only [replaceStrFuel]
        rw [if_neg hpre]
        have htl : ¬ ((p :: ps) <:+: cs) := fun hinf => h (substrCons hinf)
        rw [ih cs htl]

theorem replaceStr_skips {pat rep s : List Char} (h : ¬ (pat <:+: s)) :
    replaceStr pat rep s = s :=
  replaceStrFuel_skips pat rep s.length s h

/-- C7: the name normalizer applies the fixed ordered case-sensitive
substring replacements for the hangar misspellings —
`normalize_hangar_name "Hanger 3" = "Hangar 3"`,
`normalize_hangar_name "" = ""` — and returns any string containing none
of the four misspelling substrings unchanged. -/
theorem c7_normalize_hangar_name :
    normalize_hangar_name "Hanger 3" = "Hangar 3" ∧
    normalize_hangar_name "" = "" ∧
    ∀ s : String,
      ¬ ("Hanger".data <:+: s.data) → ¬ ("hanger".data <:+: s.data) →
      ¬ ("Hagner".data <:+: s.data) → ¬ ("hagner".data <:+: s.data) →
      normalize_hangar_name s = s := by
  refine ⟨by with_unfolding_all decide, rfl, ?_⟩
  intro s h1 h2 h3 h4
  unfold normalize_hangar_name
  split
  · rfl
  · rw [replaceStr_skips h1, replaceStr_skips h2,
      replaceStr_skips h3, replaceStr_skips h4]

/-- C7 witness: a name containing no misspelling passes through
unchanged. -/
theorem c7_witness :
    normalize_hangar_name "Terminal 1" = "Terminal 1" :=
  c7_normalize_hangar_name.2.2 "Terminal 1" (by decide) (by decide)
    (by decide) (by decide)
